import Mathlib

/-!
# vektra/tail, package watch: the inotify file watcher

A shallow embedding of `watch/inotify.go`: the watcher record, the blocking
wait `BlockUntilExists`, and the classification loop that `ChangeEvents`
runs in its goroutine. The operating system and the other collaborators
(the notification channel, `os.Stat`, `w.Add`, the cancellation tomb) are an
explicit script handed to the functions; every call the code makes on a
collaborator is written to a trace, so that "what was emitted", "how often
was the handle released" and "was the stream closed" are facts about a list.
-/

namespace Watch

/-! ## Data -/

/-- The fsnotify.Event of gopkg.in/fsnotify.v1: a path and a bit set of operations. -/
structure Event where
  Name : String
  Op : Nat
  deriving DecidableEq, Repr

namespace fsnotify

/-- The Create bit of fsnotify.Op (the package declares `Create Op = 1 << iota`). -/
def Create : Nat := 1
/-- The Write bit of fsnotify.Op. -/
def Write : Nat := 2
/-- The Remove bit of fsnotify.Op. -/
def Remove : Nat := 4
/-- The Rename bit of fsnotify.Op. -/
def Rename : Nat := 8
/-- The Chmod bit of fsnotify.Op; inotify.go never tests it. -/
def Chmod : Nat := 16

end fsnotify

/-- The test `evt.Op&flag == flag` that every case of the switch performs. -/
def hasOp (op flag : Nat) : Bool := op &&& flag == flag

/-- The struct InotifyFileWatcher; Size is an int64 that is only assigned and compared. -/
structure InotifyFileWatcher where
  Filename : String
  Size : Int
  deriving DecidableEq, Repr

/-- The constructor NewInotifyFileWatcher: `&InotifyFileWatcher{filename, 0}`. -/
def NewInotifyFileWatcher (filename : String) : InotifyFileWatcher :=
  { Filename := filename, Size := 0 }

/-- What `os.Stat(fw.Filename)` yields: a size, an error for which
os.IsNotExist holds, or any other error. -/
inductive StatResult where
  | ok (size : Int)
  | notExist
  | failed
  deriving DecidableEq, Repr

/-- What `w.Add(path)` yields: nil, an error for which os.IsNotExist holds,
or any other error. -/
inductive AddResult where
  | ok
  | notExist
  | failed
  deriving DecidableEq, Repr

/-- The three notifications a FileChanges can carry. -/
inductive ChangeEvent where
  | Modified
  | Truncated
  | Deleted
  deriving DecidableEq, Repr

/-- One outcome of the `select` in the loops: a received event, the events
channel found closed (`ok == false`), or `t.Dying()` taken. -/
inductive Recv where
  | event (evt : Event)
  | closed
  | dying
  deriving DecidableEq, Repr

/-- One turn of the ChangeEvents loop as the world presents it: what the
select yields, and what os.Stat would answer if this turn calls it. -/
structure Tick where
  recv : Recv
  stat : StatResult
  deriving DecidableEq, Repr

/-- The calls the code makes on its collaborators, in program order. -/
inductive Action where
  | acquire
  | addFile
  | addDir
  | stat
  | notify (c : ChangeEvent)
  | close
  | release
  | fatal
  deriving DecidableEq, Repr

/-! ## Collaborators that are not among the sources -/

/-- Modelled from the spec: util.Fatal (util/util.go) is not among the
sources. The spec calls such a failure fatal, "unrecoverable for this watch",
reported on the fault channel: the statement after the call is never reached.
Whether the goroutine is unwound, so that its deferred calls still run, or the
process stops on the spot, is not said; both are kept. -/
inductive FatalMode where
  | unwinds
  | halts
  deriving DecidableEq, Repr

/-- Modelled from the spec: the FileChanges of watch/filechanges.go is not
among the sources. NotifyModified, NotifyTruncated and NotifyDeleted hand one
ChangeEvent to the outbound stream, Close closes it; the stream is the
subsequence of notifications in the trace. -/
def emitted : List Action → List ChangeEvent
  | [] => []
  | .notify c :: rest => c :: emitted rest
  | _ :: rest => emitted rest

/-- Modelled from the spec: the InotifyTracker of watch/inotify_tracker.go is
not among the sources. The registry is its number of outstanding handles: a
NewWatcher that succeeds adds one, a CloseWatcher takes one away. -/
def trackerStep (outstanding : Nat) : Action → Nat
  | .acquire => outstanding + 1
  | .release => outstanding - 1
  | _ => outstanding

/-- The outstanding-handle count after a trace, from the count before it. -/
def outstandingAfter (before : Nat) (trace : List Action) : Nat :=
  trace.foldl trackerStep before

/-- How often an action occurs in a trace. -/
def occurrences (a : Action) (trace : List Action) : Nat :=
  trace.count a

/-! ## BlockUntilExists -/

/-- The errors BlockUntilExists can return. -/
inductive BlockError where
  | watchCreation
  | registration
  | stat
  | watcherClosed
  | dying
  deriving DecidableEq, Repr

/-- The world BlockUntilExists meets before its loop: whether NewWatcher
succeeds, whether `w.Add(dirname)` succeeds, and what the first os.Stat says. -/
structure BlockSetup where
  newWatcher : Bool
  addDir : Bool
  stat : StatResult
  deriving DecidableEq, Repr

/-- A run of BlockUntilExists: the calls made, the value returned (`none`
while the loop is still waiting, `some none` for nil), and how many select
outcomes were taken from the script. -/
structure BlockRun where
  trace : List Action
  result : Option (Option BlockError)
  consumed : Nat
  deriving DecidableEq, Repr

/-- The `for { select { ... } }` of BlockUntilExists (lines 50-61): the value
returned and the number of select outcomes consumed. -/
def waitForFile (fw : InotifyFileWatcher) : List Recv → Option (Option BlockError) × Nat
  | [] => (none, 0)
  | .closed :: _ => (some (some .watcherClosed), 1)
  | .dying :: _ => (some (some .dying), 1)
  | .event evt :: rest =>
    if evt.Name == fw.Filename then (some none, 1)
    else
      let r := waitForFile fw rest
      (r.1, r.2 + 1)

/-- The method BlockUntilExists (lines 28-64). The deferred CloseWatcher is
registered after a successful NewWatcher and runs on every return. -/
def BlockUntilExists (fw : InotifyFileWatcher) (env : BlockSetup) (script : List Recv) :
    BlockRun :=
  if !env.newWatcher then
    { trace := [], result := some (some .watchCreation), consumed := 0 }
  else if !env.addDir then
    { trace := [.acquire, .addDir, .release], result := some (some .registration),
      consumed := 0 }
  else
    match env.stat with
    | .ok _ =>
      { trace := [.acquire, .addDir, .stat, .release], result := some none, consumed := 0 }
    | .failed =>
      { trace := [.acquire, .addDir, .stat, .release], result := some (some .stat),
        consumed := 0 }
    | .notExist =>
      match waitForFile fw script with
      | (none, n) => { trace := [.acquire, .addDir, .stat], result := none, consumed := n }
      | (some r, n) =>
        { trace := [.acquire, .addDir, .stat, .release], result := some r, consumed := n }

/-! ## ChangeEvents -/

/-- How one turn of the loop ends: `continue` or the end of the switch, a
`return`, or a call of util.Fatal. -/
inductive Control where
  | next
  | ret
  | fatal
  deriving DecidableEq, Repr

/-- The result of one turn: how it ends, the watcher afterwards, the calls made. -/
structure Turn where
  control : Control
  fw : InotifyFileWatcher
  acts : List Action
  deriving DecidableEq, Repr

/-- The body of `case evt.Op&fsnotify.Write == fsnotify.Write` (lines 129-147),
also reached by the fallthrough of the Create case. -/
def statAndClassify (fw : InotifyFileWatcher) (prevSize : Int) (st : StatResult) : Turn :=
  match st with
  | .notExist => { control := .ret, fw := fw, acts := [.stat, .notify .Deleted] }
  | .failed => { control := .fatal, fw := fw, acts := [.stat, .fatal] }
  | .ok size =>
    let fw1 : InotifyFileWatcher := { fw with Size := size }
    if prevSize > 0 && prevSize > fw1.Size then
      { control := .next, fw := fw1, acts := [.stat, .notify .Truncated] }
    else
      { control := .next, fw := fw1, acts := [.stat, .notify .Modified] }

/-- One turn of the loop (lines 94-148): the select, then the switch with its
two fallthroughs. -/
def iteration (fw : InotifyFileWatcher) (t : Tick) : Turn :=
  let prevSize := fw.Size
  match t.recv with
  | .closed => { control := .ret, fw := fw, acts := [] }
  | .dying => { control := .ret, fw := fw, acts := [] }
  | .event evt =>
    if hasOp evt.Op fsnotify.Remove then
      if evt.Name != fw.Filename then
        { control := .next, fw := fw, acts := [] }
      else
        { control := .ret, fw := fw, acts := [.notify .Deleted] }
    else if hasOp evt.Op fsnotify.Rename then
      { control := .ret, fw := fw, acts := [.notify .Deleted] }
    else if hasOp evt.Op fsnotify.Create then
      let r := statAndClassify fw prevSize t.stat
      if evt.Name == fw.Filename then { r with acts := .addFile :: r.acts } else r
    else if hasOp evt.Op fsnotify.Write then
      statAndClassify fw prevSize t.stat
    else
      { control := .next, fw := fw, acts := [] }

/-- Where a run of ChangeEvents stands when the script is used up. -/
inductive Status where
  | waiting
  | returned
  | crashed
  deriving DecidableEq, Repr

/-- A run of ChangeEvents: the watcher, the calls made so far, and the status. -/
structure Run where
  fw : InotifyFileWatcher
  trace : List Action
  status : Status
  deriving DecidableEq, Repr

/-- The two deferred calls of the goroutine, last registered first:
`changes.Close()` and then `inotifyTracker.CloseWatcher(w)`. -/
def deferred : List Action := [.close, .release]

/-- The goroutine of ChangeEvents (lines 89-150) over a script of turns. -/
def eventLoop (mode : FatalMode) (fw : InotifyFileWatcher) : List Tick → Run
  | [] => { fw := fw, trace := [], status := .waiting }
  | t :: rest =>
    let r := iteration fw t
    match r.control with
    | .next =>
      let run := eventLoop mode r.fw rest
      { run with trace := r.acts ++ run.trace }
    | .ret => { fw := r.fw, trace := r.acts ++ deferred, status := .returned }
    | .fatal =>
      match mode with
      | .unwinds => { fw := r.fw, trace := r.acts ++ deferred, status := .crashed }
      | .halts => { fw := r.fw, trace := r.acts, status := .crashed }

/-- The world ChangeEvents meets before its goroutine starts: whether
NewWatcher succeeds, the answers of `w.Add(fw.Filename)` and `w.Add(dirname)`,
and the size of the `fi` argument when it is not nil. -/
structure Setup where
  newWatcher : Bool
  addFile : AddResult
  addDir : AddResult
  fi : Option Int
  deriving DecidableEq, Repr

/-- Lines 85-87: `if fi != nil { fw.Size = fi.Size() }`. -/
def seed (fw : InotifyFileWatcher) : Option Int → InotifyFileWatcher
  | some size => { fw with Size := size }
  | none => fw

/-- The method ChangeEvents (lines 66-153) together with its goroutine. No
deferred call exists before the goroutine starts, so a util.Fatal during setup
ends the run with nothing released and nothing closed. -/
def ChangeEvents (mode : FatalMode) (fw : InotifyFileWatcher) (env : Setup)
    (script : List Tick) : Run :=
  if !env.newWatcher then
    { fw := fw, trace := [.fatal], status := .crashed }
  else if env.addFile == .failed then
    { fw := fw, trace := [.acquire, .addFile, .fatal], status := .crashed }
  else
    let run := eventLoop mode (seed fw env.fi) script
    { run with trace := [.acquire, .addFile, .addDir] ++ run.trace }

/-! ## The rules of the specification, to compare the code with -/

/-- The classification rule as the specification words it: Truncated exactly
when the new size is below the previous one and the previous one is positive,
Modified otherwise. -/
def sizeRule (prev cur : Int) : ChangeEvent :=
  if cur < prev ∧ 0 < prev then .Truncated else .Modified

/-- The events the specification expects for the sizes s1, s2, ... seen after s0. -/
def ruleEvents (prev : Int) : List Int → List ChangeEvent
  | [] => []
  | s :: rest => sizeRule prev s :: ruleEvents s rest

/-- A Write event on the path `name` whose stat succeeds with the given size. -/
def writeTick (name : String) (size : Int) : Tick :=
  { recv := .event { Name := name, Op := fsnotify.Write }, stat := .ok size }

/-- Nothing follows a Deleted in a list of change events. -/
def DeletedIsLast (out : List ChangeEvent) : Prop :=
  ∀ pre post, out = pre ++ ChangeEvent.Deleted :: post → post = []

/-! ## Lemmas on traces and on the loop -/

theorem emitted_append (a b : List Action) : emitted (a ++ b) = emitted a ++ emitted b := by
  induction a with
  | nil => rfl
  | cons x xs ih => cases x <;> simp [emitted, ih]

theorem emitted_deferred : emitted deferred = [] := rfl

theorem eventLoop_nil (mode : FatalMode) (fw : InotifyFileWatcher) :
    eventLoop mode fw [] = { fw := fw, trace := [], status := .waiting } := rfl

theorem eventLoop_next (mode : FatalMode) (fw : InotifyFileWatcher) (t : Tick)
    (rest : List Tick) (h : (iteration fw t).control = .next) :
    eventLoop mode fw (t :: rest) =
      { fw := (eventLoop mode (iteration fw t).fw rest).fw,
        trace := (iteration fw t).acts ++ (eventLoop mode (iteration fw t).fw rest).trace,
        status := (eventLoop mode (iteration fw t).fw rest).status } := by
  simp [eventLoop, h]

theorem eventLoop_ret (mode : FatalMode) (fw : InotifyFileWatcher) (t : Tick)
    (rest : List Tick) (h : (iteration fw t).control = .ret) :
    eventLoop mode fw (t :: rest) =
      { fw := (iteration fw t).fw, trace := (iteration fw t).acts ++ deferred,
        status := .returned } := by
  simp [eventLoop, h]

theorem eventLoop_fatal (mode : FatalMode) (fw : InotifyFileWatcher) (t : Tick)
    (rest : List Tick) (h : (iteration fw t).control = .fatal) :
    eventLoop mode fw (t :: rest) =
      { fw := (iteration fw t).fw,
        trace := (iteration fw t).acts ++
          (match mode with
           | .unwinds => deferred
           | .halts => []),
        status := .crashed } := by
  cases mode <;> simp [eventLoop, h]

/-- The code's test `prevSize > 0 && prevSize > size` is the rule of the specification. -/
theorem statAndClassify_ok (fw : InotifyFileWatcher) (prev size : Int) :
    statAndClassify fw prev (.ok size) =
      { control := .next, fw := { fw with Size := size },
        acts := [.stat, .notify (sizeRule prev size)] } := by
  unfold statAndClassify sizeRule
  by_cases h1 : 0 < prev <;> by_cases h2 : size < prev <;> simp [h1, h2]

theorem iteration_write (fw : InotifyFileWatcher) (st : StatResult) :
    iteration fw { recv := .event { Name := fw.Filename, Op := fsnotify.Write }, stat := st } =
      statAndClassify fw fw.Size st := by
  simp [iteration, hasOp, fsnotify.Write, fsnotify.Remove, fsnotify.Rename, fsnotify.Create]

theorem eventLoop_writes (mode : FatalMode) (sizes : List Int) :
    ∀ fw : InotifyFileWatcher,
      emitted (eventLoop mode fw (sizes.map (writeTick fw.Filename))).trace =
        ruleEvents fw.Size sizes := by
  induction sizes with
  | nil => intro fw; rfl
  | cons s rest ih =>
    intro fw
    have hit : iteration fw (writeTick fw.Filename s) =
        { control := .next, fw := { fw with Size := s },
          acts := [.stat, .notify (sizeRule fw.Size s)] } := by
      unfold writeTick
      rw [iteration_write, statAndClassify_ok]
    have hnext : (iteration fw (writeTick fw.Filename s)).control = .next := by rw [hit]
    rw [List.map_cons, eventLoop_next mode fw _ _ hnext, hit]
    have := ih { fw with Size := s }
    simp only [emitted_append, ruleEvents] at this ⊢
    rw [this]
    rfl

theorem ruleEvents_length (sizes : List Int) : ∀ prev, (ruleEvents prev sizes).length = sizes.length := by
  induction sizes with
  | nil => intro _; rfl
  | cons s rest ih => intro prev; simp [ruleEvents, ih]

theorem ruleEvents_get (sizes : List Int) :
    ∀ (prev : Int) (i : Nat), i < sizes.length →
      (ruleEvents prev sizes)[i]? =
        some (sizeRule ((prev :: sizes).getD i 0) (sizes.getD i 0)) := by
  induction sizes with
  | nil => intro _ i h; simp at h
  | cons s rest ih =>
    intro prev i h
    cases i with
    | zero => simp [ruleEvents]
    | succ j =>
      have hj : j < rest.length := by simpa using h
      simpa [ruleEvents] using ih s j hj

theorem seed_Filename (fw : InotifyFileWatcher) (fi : Option Int) :
    (seed fw fi).Filename = fw.Filename := by
  cases fi <;> rfl

theorem ChangeEvents_started (mode : FatalMode) (fw : InotifyFileWatcher) (env : Setup)
    (script : List Tick) (hnew : env.newWatcher = true) (hadd : env.addFile ≠ .failed) :
    ChangeEvents mode fw env script =
      { fw := (eventLoop mode (seed fw env.fi) script).fw,
        trace := [.acquire, .addFile, .addDir] ++ (eventLoop mode (seed fw env.fi) script).trace,
        status := (eventLoop mode (seed fw env.fi) script).status } := by
  simp [ChangeEvents, hnew, hadd]

theorem emitted_ChangeEvents_started (mode : FatalMode) (fw : InotifyFileWatcher)
    (env : Setup) (script : List Tick) (hnew : env.newWatcher = true)
    (hadd : env.addFile ≠ .failed) :
    emitted (ChangeEvents mode fw env script).trace =
      emitted (eventLoop mode (seed fw env.fi) script).trace := by
  rw [ChangeEvents_started mode fw env script hnew hadd]
  rfl

/-- What one turn can hand to the outbound stream: a turn that goes on never
emits Deleted, and a turn that ends the loop emits nothing or Deleted alone. -/
theorem iteration_emitted (fw : InotifyFileWatcher) (t : Tick) :
    ((iteration fw t).control = .next ∧ ChangeEvent.Deleted ∉ emitted (iteration fw t).acts) ∨
    ((iteration fw t).control ≠ .next ∧
      (emitted (iteration fw t).acts = [] ∨
        emitted (iteration fw t).acts = [ChangeEvent.Deleted])) := by
  obtain ⟨recv, st⟩ := t
  cases recv with
  | closed => right; simp [iteration, emitted]
  | dying => right; simp [iteration, emitted]
  | event evt =>
    cases st with
    | notExist =>
      simp only [iteration, statAndClassify]
      split_ifs <;> simp_all [emitted]
    | failed =>
      simp only [iteration, statAndClassify]
      split_ifs <;> simp_all [emitted]
    | ok size =>
      simp only [iteration, statAndClassify]
      split_ifs <;> simp_all [emitted]

theorem deletedIsLast_append (a b : List ChangeEvent) (ha : ChangeEvent.Deleted ∉ a)
    (hb : DeletedIsLast b) : DeletedIsLast (a ++ b) := by
  intro pre post h
  rcases List.append_eq_append_iff.mp h with ⟨a1, hpre, hb1⟩ | ⟨c1, ha1, hc1⟩
  · exact hb a1 post hb1
  · cases c1 with
    | nil =>
      simp only [List.nil_append] at hc1
      exact hb [] post (by simpa using hc1.symm)
    | cons c cs =>
      simp only [List.cons_append, List.cons.injEq] at hc1
      exact absurd (by rw [ha1, ← hc1.1]; simp) ha

theorem deletedIsLast_nil : DeletedIsLast [] := by
  intro pre post h
  simp at h

theorem deletedIsLast_single : DeletedIsLast [ChangeEvent.Deleted] := by
  intro pre post h
  cases pre with
  | nil => simpa using h.symm
  | cons x xs => simp at h

/-- In the output of the loop nothing follows a Deleted. -/
theorem eventLoop_deletedIsLast (mode : FatalMode) (script : List Tick) :
    ∀ fw, DeletedIsLast (emitted (eventLoop mode fw script).trace) := by
  induction script with
  | nil => intro fw; exact deletedIsLast_nil
  | cons t rest ih =>
    intro fw
    rcases iteration_emitted fw t with ⟨hc, hd⟩ | ⟨hc, he⟩
    · rw [eventLoop_next mode fw t rest hc]
      simp only [emitted_append]
      exact deletedIsLast_append _ _ hd (ih _)
    · have htrace : emitted (eventLoop mode fw (t :: rest)).trace =
          emitted (iteration fw t).acts := by
        cases hctl : (iteration fw t).control with
        | next => exact absurd hctl hc
        | ret => rw [eventLoop_ret mode fw t rest hctl]; simp [emitted_append, emitted_deferred]
        | fatal =>
          rw [eventLoop_fatal mode fw t rest hctl]
          cases mode <;> simp [emitted_append, emitted_deferred, emitted]
      rw [htrace]
      rcases he with he | he <;> rw [he]
      · exact deletedIsLast_nil
      · exact deletedIsLast_single

theorem ChangeEvents_emitted_cases (mode : FatalMode) (fw : InotifyFileWatcher) (env : Setup)
    (script : List Tick) :
    emitted (ChangeEvents mode fw env script).trace = [] ∨
    emitted (ChangeEvents mode fw env script).trace =
      emitted (eventLoop mode (seed fw env.fi) script).trace := by
  by_cases hnew : env.newWatcher = true
  · by_cases hadd : env.addFile = .failed
    · left; simp [ChangeEvents, hnew, hadd, emitted]
    · right; exact emitted_ChangeEvents_started mode fw env script hnew hadd
  · left; simp [ChangeEvents, hnew, emitted]

theorem ChangeEvents_deletedIsLast (mode : FatalMode) (fw : InotifyFileWatcher) (env : Setup)
    (script : List Tick) : DeletedIsLast (emitted (ChangeEvents mode fw env script).trace) := by
  rcases ChangeEvents_emitted_cases mode fw env script with h | h <;> rw [h]
  · exact deletedIsLast_nil
  · exact eventLoop_deletedIsLast mode script _

theorem deletedIsLast_not_mem (out pre post : List ChangeEvent) (h : DeletedIsLast out)
    (heq : out = pre ++ ChangeEvent.Deleted :: post) : ChangeEvent.Deleted ∉ pre := by
  intro hmem
  obtain ⟨p1, p2, hp⟩ := List.append_of_mem hmem
  have := h p1 (p2 ++ ChangeEvent.Deleted :: post) (by rw [heq, hp]; simp)
  simp at this

/-- A turn that takes the cancellation branch of the select. -/
theorem iteration_dying (fw : InotifyFileWatcher) (st : StatResult) :
    iteration fw { recv := .dying, stat := st } = { control := .ret, fw := fw, acts := [] } := rfl

/-- A turn that finds the events channel closed. -/
theorem iteration_closed (fw : InotifyFileWatcher) (st : StatResult) :
    iteration fw { recv := .closed, stat := st } = { control := .ret, fw := fw, acts := [] } := rfl

/-- A script cut short by a turn that ends the loop without emitting gives the
output of the turns before it. -/
theorem eventLoop_append_silent (mode : FatalMode) (t : Tick) (rest : List Tick)
    (hsilent : ∀ fw, (iteration fw t).control = .ret ∧ (iteration fw t).acts = [])
    (pre : List Tick) :
    ∀ fw, emitted (eventLoop mode fw (pre ++ t :: rest)).trace =
      emitted (eventLoop mode fw pre).trace := by
  induction pre with
  | nil =>
    intro fw
    rw [List.nil_append, eventLoop_ret mode fw t rest (hsilent fw).1, (hsilent fw).2]
    rfl
  | cons u us ih =>
    intro fw
    rw [List.cons_append]
    cases hctl : (iteration fw u).control with
    | next =>
      rw [eventLoop_next mode fw u _ hctl, eventLoop_next mode fw u _ hctl]
      simp only [emitted_append, ih]
    | ret => rw [eventLoop_ret mode fw u _ hctl, eventLoop_ret mode fw u _ hctl]
    | fatal => rw [eventLoop_fatal mode fw u _ hctl, eventLoop_fatal mode fw u _ hctl]

/-! ## The claims -/

/-- C1: in ChangeEvents, for every seeded size s0 and every sequence of Write
events on the tracked path whose stats succeed with sizes s1, s2, ..., the
output has one event per Write, and the i-th one is Truncated exactly when
s_i < s_(i-1) and s_(i-1) > 0, and Modified otherwise; for a new watcher
without initial info s0 is 0. -/
theorem C1_write_sizes_classified (mode : FatalMode) (fw : InotifyFileWatcher)
    (env : Setup) (sizes : List Int) (hnew : env.newWatcher = true)
    (hadd : env.addFile ≠ .failed) :
    emitted (ChangeEvents mode fw env (sizes.map (writeTick fw.Filename))).trace =
      ruleEvents (seed fw env.fi).Size sizes ∧
    (emitted (ChangeEvents mode fw env (sizes.map (writeTick fw.Filename))).trace).length =
      sizes.length ∧
    (∀ i, i < sizes.length →
      (emitted (ChangeEvents mode fw env (sizes.map (writeTick fw.Filename))).trace)[i]? =
        some (if sizes.getD i 0 < ((seed fw env.fi).Size :: sizes).getD i 0 ∧
                0 < ((seed fw env.fi).Size :: sizes).getD i 0
              then ChangeEvent.Truncated else ChangeEvent.Modified)) ∧
    (∀ name, (seed (NewInotifyFileWatcher name) none).Size = 0) ∧
    (∀ s0, (seed fw (some s0)).Size = s0) := by
  have hout : emitted (ChangeEvents mode fw env (sizes.map (writeTick fw.Filename))).trace =
      ruleEvents (seed fw env.fi).Size sizes := by
    rw [emitted_ChangeEvents_started mode fw env _ hnew hadd]
    have := eventLoop_writes mode sizes (seed fw env.fi)
    rwa [seed_Filename] at this
  refine ⟨hout, ?_, ?_, fun _ => rfl, fun _ => rfl⟩
  · rw [hout, ruleEvents_length]
  · intro i hi
    rw [hout, ruleEvents_get sizes _ i hi]
    rfl

/-- C1 at the scenario of the specification: seeded with size 100, Writes with
sizes 100 and 20 give Modified and then Truncated. -/
theorem C1_write_sizes_classified_witness :
    emitted (ChangeEvents .halts (NewInotifyFileWatcher "/var/log/app.log")
      { newWatcher := true, addFile := .ok, addDir := .ok, fi := some 100 }
      ([100, 20].map (writeTick "/var/log/app.log"))).trace =
      [ChangeEvent.Modified, ChangeEvent.Truncated] :=
  (C1_write_sizes_classified .halts (NewInotifyFileWatcher "/var/log/app.log")
    { newWatcher := true, addFile := .ok, addDir := .ok, fi := some 100 } [100, 20]
    rfl (by decide)).1.trans (by decide)

/-- C2: in ChangeEvents, for every state and every raw event that is a Remove
of the tracked path, or a Rename of whatever path (an event that reaches the
Rename case: its Remove bit is clear, as for the kind Rename itself), the loop
emits exactly one Deleted and returns, whatever raw events follow; and in every
output stream nothing follows a Deleted, so it occurs at most once and last. -/
theorem C2_remove_or_rename_is_terminal (mode : FatalMode) (fw : InotifyFileWatcher)
    (evt : Event) (st : StatResult) (rest : List Tick)
    (h : (hasOp evt.Op fsnotify.Remove = true ∧ evt.Name = fw.Filename) ∨
         (hasOp evt.Op fsnotify.Remove = false ∧ hasOp evt.Op fsnotify.Rename = true)) :
    eventLoop mode fw ({ recv := .event evt, stat := st } :: rest) =
      { fw := fw, trace := [.notify .Deleted, .close, .release], status := .returned } ∧
    emitted (eventLoop mode fw ({ recv := .event evt, stat := st } :: rest)).trace =
      [ChangeEvent.Deleted] ∧
    (∀ (fw0 : InotifyFileWatcher) (env : Setup) (script : List Tick)
        (pre post : List ChangeEvent),
      emitted (ChangeEvents mode fw0 env script).trace = pre ++ ChangeEvent.Deleted :: post →
        post = [] ∧ ChangeEvent.Deleted ∉ pre) := by
  have hit : iteration fw { recv := .event evt, stat := st } =
      { control := .ret, fw := fw, acts := [.notify .Deleted] } := by
    rcases h with ⟨h1, h2⟩ | ⟨h1, h2⟩
    · simp [iteration, h1, h2]
    · simp [iteration, h1, h2]
  have hrun : eventLoop mode fw ({ recv := .event evt, stat := st } :: rest) =
      { fw := fw, trace := [.notify .Deleted, .close, .release], status := .returned } := by
    rw [eventLoop_ret mode fw _ rest (by rw [hit]), hit]
    rfl
  refine ⟨hrun, by rw [hrun]; rfl, ?_⟩
  intro fw0 env script pre post heq
  have hlast := ChangeEvents_deletedIsLast mode fw0 env script
  exact ⟨hlast pre post heq, deletedIsLast_not_mem _ pre post hlast heq⟩

/-- C2 at a Rename of a sibling path, with more raw events behind it. -/
theorem C2_remove_or_rename_is_terminal_witness :
    eventLoop .halts (NewInotifyFileWatcher "/var/log/app.log")
      ({ recv := .event { Name := "/var/log/other.log", Op := fsnotify.Rename },
         stat := .ok 7 } :: [writeTick "/var/log/app.log" 9]) =
      { fw := NewInotifyFileWatcher "/var/log/app.log",
        trace := [.notify .Deleted, .close, .release], status := .returned } :=
  (C2_remove_or_rename_is_terminal .halts (NewInotifyFileWatcher "/var/log/app.log")
    { Name := "/var/log/other.log", Op := fsnotify.Rename } (.ok 7)
    [writeTick "/var/log/app.log" 9] (Or.inr ⟨by decide, by decide⟩)).1

/-- C7: in ChangeEvents, for every state, a turn that observes cancellation
returns without any notification (no Deleted, Modified or Truncated), and the
output of a run that is cancelled after some raw events is exactly the output
of those raw events. -/
theorem C7_cancellation_is_silent (mode : FatalMode) (fw : InotifyFileWatcher)
    (st : StatResult) (rest : List Tick) :
    eventLoop mode fw ({ recv := .dying, stat := st } :: rest) =
      { fw := fw, trace := [.close, .release], status := .returned } ∧
    emitted (eventLoop mode fw ({ recv := .dying, stat := st } :: rest)).trace = [] ∧
    (∀ (fw0 : InotifyFileWatcher) (env : Setup) (pre : List Tick),
      emitted (ChangeEvents mode fw0 env (pre ++ { recv := .dying, stat := st } :: rest)).trace =
        emitted (ChangeEvents mode fw0 env pre).trace) := by
  have hrun : eventLoop mode fw ({ recv := .dying, stat := st } :: rest) =
      { fw := fw, trace := [.close, .release], status := .returned } := by
    rw [eventLoop_ret mode fw _ rest (by rw [iteration_dying]), iteration_dying]
    rfl
  refine ⟨hrun, by rw [hrun]; rfl, ?_⟩
  intro fw0 env pre
  by_cases hnew : env.newWatcher = true
  · by_cases hadd : env.addFile = .failed
    · simp [ChangeEvents, hnew, hadd]
    · rw [emitted_ChangeEvents_started mode fw0 env _ hnew hadd,
        emitted_ChangeEvents_started mode fw0 env _ hnew hadd]
      exact eventLoop_append_silent mode _ rest
        (fun fw1 => by rw [iteration_dying]; exact ⟨rfl, rfl⟩) pre _
  · simp [ChangeEvents, hnew]

/-- C3: the code at the failing inputs. The path does not exist at the first
stat and no Create for it ever arrives; the only raw event is a Write, or a
Remove, named exactly that path, then the channel closes. BlockUntilExists
returns nil on both, although the comments at lines 37 and 43-44 speak of a
watch for files being created: the loop at lines 52-57 never reads evt.Op. -/
theorem C3_returns_nil_without_create :
    (BlockUntilExists (NewInotifyFileWatcher "/var/log/app.log")
      { newWatcher := true, addDir := true, stat := .notExist }
      ([({ Name := "/var/log/app.log", Op := fsnotify.Write } : Event)].map Recv.event ++
        [Recv.closed])).result = some none ∧
    (¬ ∃ e ∈ [({ Name := "/var/log/app.log", Op := fsnotify.Write } : Event)],
        e.Name = "/var/log/app.log" ∧ e.Op = fsnotify.Create) ∧
    (BlockUntilExists (NewInotifyFileWatcher "/var/log/app.log")
      { newWatcher := true, addDir := true, stat := .notExist }
      ([({ Name := "/var/log/app.log", Op := fsnotify.Remove } : Event)].map Recv.event ++
        [Recv.closed])).result = some none ∧
    (¬ ∃ e ∈ [({ Name := "/var/log/app.log", Op := fsnotify.Remove } : Event)],
        e.Name = "/var/log/app.log" ∧ e.Op = fsnotify.Create) := by
  decide

theorem waitForFile_terminated (fw : InotifyFileWatcher) (term : Recv)
    (hterm : term = .closed ∨ term = .dying) (evts : List Event) :
    ((waitForFile fw (evts.map Recv.event ++ [term])).1 = some none ↔
        ∃ e ∈ evts, e.Name = fw.Filename) ∧
    (waitForFile fw (evts.map Recv.event ++ [term])).1 ≠ none := by
  induction evts with
  | nil =>
    rcases hterm with h | h <;> subst h <;> simp [waitForFile]
  | cons e es ih =>
    by_cases hname : e.Name = fw.Filename
    · simp [waitForFile, hname]
    · simpa [waitForFile, hname] using ih

theorem BlockUntilExists_waits (fw : InotifyFileWatcher) (env : BlockSetup)
    (script : List Recv) (hnew : env.newWatcher = true) (hdir : env.addDir = true)
    (hstat : env.stat = .notExist) :
    (BlockUntilExists fw env script).result = (waitForFile fw script).1 := by
  unfold BlockUntilExists
  simp only [hnew, hdir, hstat, Bool.not_true, Bool.false_eq_true, if_false]
  split <;> simp_all

/-- The loop of BlockUntilExists as written: with the handle acquired, the
directory registered and the first stat reporting not-found, a script that ends
in channel closure or cancellation makes the call return, and it returns nil
exactly when some raw event is named as the path, whatever its kind; an event
for another path is skipped; when the first stat finds the path, nil is
returned without consuming any event. -/
theorem BlockUntilExists_loop_as_written (fw : InotifyFileWatcher) (env : BlockSetup)
    (evts : List Event) (term : Recv) (hnew : env.newWatcher = true)
    (hdir : env.addDir = true) (hterm : term = .closed ∨ term = .dying) :
    (env.stat = .notExist →
      ((BlockUntilExists fw env (evts.map Recv.event ++ [term])).result = some none ↔
        ∃ e ∈ evts, e.Name = fw.Filename) ∧
      (BlockUntilExists fw env (evts.map Recv.event ++ [term])).result ≠ none) ∧
    (env.stat = .notExist → ∀ (e : Event) (rest : List Recv), e.Name ≠ fw.Filename →
      (BlockUntilExists fw env (.event e :: rest)).result =
        (BlockUntilExists fw env rest).result) ∧
    (∀ (size : Int) (script : List Recv), env.stat = .ok size →
      (BlockUntilExists fw env script).result = some none ∧
      (BlockUntilExists fw env script).consumed = 0) := by
  refine ⟨?_, ?_, ?_⟩
  · intro hstat
    rw [BlockUntilExists_waits fw env _ hnew hdir hstat]
    exact waitForFile_terminated fw term hterm evts
  · intro hstat e rest hname
    rw [BlockUntilExists_waits fw env _ hnew hdir hstat,
      BlockUntilExists_waits fw env _ hnew hdir hstat]
    simp [waitForFile, hname]
  · intro size script hstat
    simp [BlockUntilExists, hnew, hdir, hstat]

/-- C4 as stated fails: a Write for a sibling path (not the tracked path, not
a Rename) makes the loop stat the tracked path, emit Modified and set the size. -/
theorem C4_sibling_write_counterexample :
    "/var/log/other.log" ≠ (NewInotifyFileWatcher "/var/log/app.log").Filename ∧
    hasOp fsnotify.Write fsnotify.Rename = false ∧
    iteration (NewInotifyFileWatcher "/var/log/app.log")
      { recv := .event { Name := "/var/log/other.log", Op := fsnotify.Write },
        stat := .ok 10 } =
      { control := .next, fw := { Filename := "/var/log/app.log", Size := 10 },
        acts := [.stat, .notify .Modified] } := by
  decide

/-- C4, amended: for every raw event whose path is not the tracked path, if
its Remove bit is set, or none of the Rename, Create and Write bits is, the turn
emits nothing, calls no stat, leaves the watcher as it is and the loop goes on;
if it reaches the Create or Write case, the tracked path is stat'ed and the turn
is the one of a Write on the tracked path. -/
theorem C4_sibling_events (fw : InotifyFileWatcher) (evt : Event) (st : StatResult)
    (hname : evt.Name ≠ fw.Filename) :
    ((hasOp evt.Op fsnotify.Remove = true ∨
        (hasOp evt.Op fsnotify.Rename = false ∧ hasOp evt.Op fsnotify.Create = false ∧
          hasOp evt.Op fsnotify.Write = false)) →
      iteration fw { recv := .event evt, stat := st } =
        { control := .next, fw := fw, acts := [] }) ∧
    (hasOp evt.Op fsnotify.Remove = false → hasOp evt.Op fsnotify.Rename = false →
      (hasOp evt.Op fsnotify.Create = true ∨ hasOp evt.Op fsnotify.Write = true) →
      iteration fw { recv := .event evt, stat := st } =
        iteration fw
          { recv := .event { Name := fw.Filename, Op := fsnotify.Write }, stat := st } ∧
      Action.stat ∈ (iteration fw { recv := .event evt, stat := st }).acts) := by
  constructor
  · rintro (h | ⟨h1, h2, h3⟩)
    · simp [iteration, h, hname]
    · by_cases hrm : hasOp evt.Op fsnotify.Remove = true
      · simp [iteration, hrm, hname]
      · simp [iteration, hrm, h1, h2, h3]
  · intro hrm hrn hcw
    have hit : iteration fw { recv := .event evt, stat := st } =
        statAndClassify fw fw.Size st := by
      rcases hcw with h | h
      · simp [iteration, hrm, hrn, h, hname]
      · by_cases hc : hasOp evt.Op fsnotify.Create = true
        · simp [iteration, hrm, hrn, hc, hname]
        · simp [iteration, hrm, hrn, hc, h]
    rw [hit, iteration_write]
    refine ⟨rfl, ?_⟩
    cases st with
    | ok size => rw [statAndClassify_ok]; simp
    | notExist => simp [statAndClassify]
    | failed => simp [statAndClassify]

/-- C4 amended, at a Remove of a sibling path: the turn does nothing. -/
theorem C4_sibling_events_witness :
    iteration (NewInotifyFileWatcher "/var/log/app.log")
      { recv := .event { Name := "/var/log/other.log", Op := fsnotify.Remove },
        stat := .ok 10 } =
      { control := .next, fw := NewInotifyFileWatcher "/var/log/app.log", acts := [] } :=
  (C4_sibling_events (NewInotifyFileWatcher "/var/log/app.log")
    { Name := "/var/log/other.log", Op := fsnotify.Remove } (.ok 10) (by decide)).1
    (Or.inl (by decide))

/-- A turn that reaches the Write case, directly or through the Create case,
makes the calls of statAndClassify, after a re-registration when the event is a
Create named as the tracked path. -/
theorem iteration_classified (fw : InotifyFileWatcher) (evt : Event) (st : StatResult)
    (hrm : hasOp evt.Op fsnotify.Remove = false) (hrn : hasOp evt.Op fsnotify.Rename = false)
    (hcls : hasOp evt.Op fsnotify.Write = true ∨ hasOp evt.Op fsnotify.Create = true) :
    (iteration fw { recv := .event evt, stat := st }).control =
        (statAndClassify fw fw.Size st).control ∧
    (iteration fw { recv := .event evt, stat := st }).fw = (statAndClassify fw fw.Size st).fw ∧
    ((iteration fw { recv := .event evt, stat := st }).acts =
        (statAndClassify fw fw.Size st).acts ∨
      (iteration fw { recv := .event evt, stat := st }).acts =
        .addFile :: (statAndClassify fw fw.Size st).acts) := by
  by_cases hc : hasOp evt.Op fsnotify.Create = true
  · by_cases hname : evt.Name = fw.Filename
    · simp [iteration, hrm, hrn, hc, hname]
    · simp [iteration, hrm, hrn, hc, hname]
  · have hw : hasOp evt.Op fsnotify.Write = true := by
      rcases hcls with h | h
      · exact h
      · exact absurd h hc
    simp [iteration, hrm, hrn, hc, hw]

/-- C5: in ChangeEvents, when a Write event, or a Create event, is classified:
if the stat fails with not-found, exactly one Deleted is emitted and the loop
returns with the watcher (and so lastKnownSize) unchanged; if the stat fails
with another error, nothing is emitted, util.Fatal is called and the run ends,
lastKnownSize unchanged; and the turn emits a Modified or Truncated only when
the stat succeeded. -/
theorem C5_stat_failures (mode : FatalMode) (fw : InotifyFileWatcher) (evt : Event)
    (st : StatResult) (rest : List Tick)
    (hrm : hasOp evt.Op fsnotify.Remove = false) (hrn : hasOp evt.Op fsnotify.Rename = false)
    (hcls : hasOp evt.Op fsnotify.Write = true ∨ hasOp evt.Op fsnotify.Create = true) :
    (st = .notExist →
      emitted (eventLoop mode fw ({ recv := .event evt, stat := st } :: rest)).trace =
        [ChangeEvent.Deleted] ∧
      (eventLoop mode fw ({ recv := .event evt, stat := st } :: rest)).status = .returned ∧
      (eventLoop mode fw ({ recv := .event evt, stat := st } :: rest)).fw = fw) ∧
    (st = .failed →
      emitted (eventLoop mode fw ({ recv := .event evt, stat := st } :: rest)).trace = [] ∧
      Action.fatal ∈ (eventLoop mode fw ({ recv := .event evt, stat := st } :: rest)).trace ∧
      (eventLoop mode fw ({ recv := .event evt, stat := st } :: rest)).status = .crashed ∧
      (eventLoop mode fw ({ recv := .event evt, stat := st } :: rest)).fw = fw) ∧
    ((ChangeEvent.Modified ∈ emitted (iteration fw { recv := .event evt, stat := st }).acts ∨
      ChangeEvent.Truncated ∈ emitted (iteration fw { recv := .event evt, stat := st }).acts) →
      ∃ size, st = .ok size) := by
  obtain ⟨hctl, hfw, hacts⟩ := iteration_classified fw evt st hrm hrn hcls
  refine ⟨?_, ?_, ?_⟩
  · intro hst
    subst hst
    have hret : (iteration fw { recv := .event evt, stat := .notExist }).control = .ret := by
      rw [hctl]; rfl
    rw [eventLoop_ret mode fw _ rest hret, hfw]
    refine ⟨?_, rfl, rfl⟩
    rcases hacts with h | h <;> rw [h] <;> rfl
  · intro hst
    subst hst
    have hfat : (iteration fw { recv := .event evt, stat := .failed }).control = .fatal := by
      rw [hctl]; rfl
    rw [eventLoop_fatal mode fw _ rest hfat, hfw]
    refine ⟨?_, ?_, rfl, rfl⟩
    · rcases hacts with h | h <;> rw [h] <;> cases mode <;> rfl
    · rcases hacts with h | h <;> rw [h] <;> simp [statAndClassify]
  · intro hem
    cases st with
    | ok size => exact ⟨size, rfl⟩
    | notExist =>
      rcases hacts with h | h <;> rw [h] at hem <;> simp [statAndClassify, emitted] at hem
    | failed =>
      rcases hacts with h | h <;> rw [h] at hem <;> simp [statAndClassify, emitted] at hem

/-- C5 at a Create of the tracked path whose stat reports not-found, seen at
size 100: Deleted alone is emitted and the size is still 100. -/
theorem C5_stat_failures_witness :
    emitted (eventLoop .halts { Filename := "/var/log/app.log", Size := 100 }
      ({ recv := .event { Name := "/var/log/app.log", Op := fsnotify.Create },
         stat := .notExist } :: [writeTick "/var/log/app.log" 9])).trace =
      [ChangeEvent.Deleted] ∧
    (eventLoop .halts { Filename := "/var/log/app.log", Size := 100 }
      ({ recv := .event { Name := "/var/log/app.log", Op := fsnotify.Create },
         stat := .notExist } :: [writeTick "/var/log/app.log" 9])).status = .returned ∧
    (eventLoop .halts { Filename := "/var/log/app.log", Size := 100 }
      ({ recv := .event { Name := "/var/log/app.log", Op := fsnotify.Create },
         stat := .notExist } :: [writeTick "/var/log/app.log" 9])).fw =
      { Filename := "/var/log/app.log", Size := 100 } :=
  (C5_stat_failures .halts { Filename := "/var/log/app.log", Size := 100 }
    { Name := "/var/log/app.log", Op := fsnotify.Create } .notExist
    [writeTick "/var/log/app.log" 9] (by decide) (by decide) (Or.inr (by decide))).1 rfl

/-- C6 as stated fails: the registration of the parent directory fails, yet
util.Fatal is not called, setup goes on and the stream starts and classifies. -/
theorem C6_directory_failure_counterexample :
    ChangeEvents .halts (NewInotifyFileWatcher "/var/log/app.log")
      { newWatcher := true, addFile := .ok, addDir := .failed, fi := none }
      [writeTick "/var/log/app.log" 5] =
      { fw := { Filename := "/var/log/app.log", Size := 5 },
        trace := [.acquire, .addFile, .addDir, .stat, .notify .Modified],
        status := .waiting } ∧
    Action.fatal ∉ (ChangeEvents .halts (NewInotifyFileWatcher "/var/log/app.log")
      { newWatcher := true, addFile := .ok, addDir := .failed, fi := none }
      [writeTick "/var/log/app.log" 5]).trace := by
  decide

/-- C6, amended: in ChangeEvents a failure to acquire the handle is fatal; a
registration failure on the tracked path is tolerated (setup goes on and the
loop starts) when it is a not-found failure and fatal when it is any other
error; the result of registering the parent directory is discarded, so that
setup goes on and the loop starts whether or not it failed. -/
theorem C6_registration_failures (mode : FatalMode) (fw : InotifyFileWatcher) (env : Setup)
    (script : List Tick) :
    (env.newWatcher = false →
      ChangeEvents mode fw env script = { fw := fw, trace := [.fatal], status := .crashed }) ∧
    (env.newWatcher = true → env.addFile = .failed →
      ChangeEvents mode fw env script =
        { fw := fw, trace := [.acquire, .addFile, .fatal], status := .crashed }) ∧
    (env.newWatcher = true → (env.addFile = .ok ∨ env.addFile = .notExist) →
      ChangeEvents mode fw env script =
        { fw := (eventLoop mode (seed fw env.fi) script).fw,
          trace := [.acquire, .addFile, .addDir] ++
            (eventLoop mode (seed fw env.fi) script).trace,
          status := (eventLoop mode (seed fw env.fi) script).status }) ∧
    (∀ dir : AddResult,
      ChangeEvents mode fw { env with addDir := dir } script =
        ChangeEvents mode fw env script) ∧
    (Action.fatal ∈ (ChangeEvents mode fw env []).trace ↔
      (env.newWatcher = false ∨ env.addFile = .failed)) := by
  refine ⟨?_, ?_, ?_, ?_, ?_⟩
  · intro h; simp [ChangeEvents, h]
  · intro h1 h2; simp [ChangeEvents, h1, h2]
  · intro h1 h2
    exact ChangeEvents_started mode fw env script h1 (by rcases h2 with h | h <;> simp [h])
  · intro dir; rfl
  · by_cases h1 : env.newWatcher = true
    · by_cases h2 : env.addFile = .failed
      · simp [ChangeEvents, h1, h2]
      · simp [ChangeEvents, h1, h2, eventLoop]
    · simp [ChangeEvents, h1]

/-- No turn of the loop touches the handle or closes the stream. -/
theorem iteration_acts_clean (fw : InotifyFileWatcher) (t : Tick) :
    Action.close ∉ (iteration fw t).acts ∧ Action.release ∉ (iteration fw t).acts ∧
      Action.acquire ∉ (iteration fw t).acts := by
  obtain ⟨recv, st⟩ := t
  cases recv with
  | closed => simp [iteration]
  | dying => simp [iteration]
  | event evt =>
    cases st <;> simp only [iteration, statAndClassify] <;> split_ifs <;> simp_all

/-- The shape of the loop's trace by the way the run stands: a run that
returned, or crashed while unwinding, ends with the two deferred calls and has
none before; a run that waits, or stopped on the spot, has none at all. -/
theorem eventLoop_teardown (mode : FatalMode) (script : List Tick) :
    ∀ fw,
      (((eventLoop mode fw script).status = .returned ∨
          ((eventLoop mode fw script).status = .crashed ∧ mode = .unwinds)) →
        ∃ body, (eventLoop mode fw script).trace = body ++ [Action.close, Action.release] ∧
          Action.close ∉ body ∧ Action.release ∉ body ∧ Action.acquire ∉ body) ∧
      (((eventLoop mode fw script).status = .waiting ∨
          ((eventLoop mode fw script).status = .crashed ∧ mode = .halts)) →
        Action.close ∉ (eventLoop mode fw script).trace ∧
          Action.release ∉ (eventLoop mode fw script).trace ∧
          Action.acquire ∉ (eventLoop mode fw script).trace) := by
  induction script with
  | nil => intro fw; simp [eventLoop]
  | cons t rest ih =>
    intro fw
    obtain ⟨hc, hr, ha⟩ := iteration_acts_clean fw t
    cases hctl : (iteration fw t).control with
    | next =>
      rw [eventLoop_next mode fw t rest hctl]
      obtain ⟨ih1, ih2⟩ := ih (iteration fw t).fw
      constructor
      · intro h
        obtain ⟨body, hb, hbc, hbr, hba⟩ := ih1 h
        refine ⟨(iteration fw t).acts ++ body, ?_, ?_, ?_, ?_⟩
        · simp only [hb, List.append_assoc]
        · simp [hc, hbc]
        · simp [hr, hbr]
        · simp [ha, hba]
      · intro h
        obtain ⟨h1, h2, h3⟩ := ih2 h
        simp [hc, hr, ha, h1, h2, h3]
    | ret =>
      rw [eventLoop_ret mode fw t rest hctl]
      constructor
      · intro _
        exact ⟨(iteration fw t).acts, rfl, hc, hr, ha⟩
      · intro h
        simp at h
    | fatal =>
      rw [eventLoop_fatal mode fw t rest hctl]
      cases mode with
      | unwinds =>
        constructor
        · intro _
          exact ⟨(iteration fw t).acts, rfl, hc, hr, ha⟩
        · intro h
          simp at h
      | halts =>
        constructor
        · intro h
          simp at h
        · intro _
          simp [hc, hr, ha]

/-- C8 as stated fails: the handle is acquired, the registration of the
tracked path fails with an error other than not-found, util.Fatal ends the run
before the goroutine and its deferred calls exist; the handle is not released
and the stream is not closed, whichever way util.Fatal ends the run. -/
theorem C8_fatal_registration_counterexample :
    (ChangeEvents .unwinds (NewInotifyFileWatcher "/var/log/app.log")
      { newWatcher := true, addFile := .failed, addDir := .ok, fi := none } []).status =
      .crashed ∧
    occurrences .acquire (ChangeEvents .unwinds (NewInotifyFileWatcher "/var/log/app.log")
      { newWatcher := true, addFile := .failed, addDir := .ok, fi := none } []).trace = 1 ∧
    occurrences .release (ChangeEvents .unwinds (NewInotifyFileWatcher "/var/log/app.log")
      { newWatcher := true, addFile := .failed, addDir := .ok, fi := none } []).trace = 0 ∧
    occurrences .close (ChangeEvents .unwinds (NewInotifyFileWatcher "/var/log/app.log")
      { newWatcher := true, addFile := .failed, addDir := .ok, fi := none } []).trace = 0 ∧
    (ChangeEvents .halts (NewInotifyFileWatcher "/var/log/app.log")
      { newWatcher := true, addFile := .failed, addDir := .ok, fi := none } []).status =
      .crashed ∧
    occurrences .acquire (ChangeEvents .halts (NewInotifyFileWatcher "/var/log/app.log")
      { newWatcher := true, addFile := .failed, addDir := .ok, fi := none } []).trace = 1 ∧
    occurrences .release (ChangeEvents .halts (NewInotifyFileWatcher "/var/log/app.log")
      { newWatcher := true, addFile := .failed, addDir := .ok, fi := none } []).trace = 0 ∧
    occurrences .close (ChangeEvents .halts (NewInotifyFileWatcher "/var/log/app.log")
      { newWatcher := true, addFile := .failed, addDir := .ok, fi := none } []).trace = 0 := by
  decide

/-- C8, amended: for every run of ChangeEvents that acquired a handle, when the
goroutine returns (Deleted emitted, cancellation, events channel closed), and
when a fatal stat error unwinds it, the handle is released exactly once and the
stream closed exactly once, as the last two calls, after every notification;
when a fatal registration error ends the run, or a fatal stat error stops the
process on the spot, nothing is released and nothing is closed; neither is
while the loop still waits. -/
theorem C8_teardown (mode : FatalMode) (fw : InotifyFileWatcher) (env : Setup)
    (script : List Tick) (hnew : env.newWatcher = true) :
    (((ChangeEvents mode fw env script).status = .returned ∨
        ((ChangeEvents mode fw env script).status = .crashed ∧ mode = .unwinds ∧
          env.addFile ≠ .failed)) →
      occurrences .acquire (ChangeEvents mode fw env script).trace = 1 ∧
      occurrences .release (ChangeEvents mode fw env script).trace = 1 ∧
      occurrences .close (ChangeEvents mode fw env script).trace = 1 ∧
      ∃ body, (ChangeEvents mode fw env script).trace = body ++ [Action.close, Action.release] ∧
        Action.close ∉ body ∧ Action.release ∉ body ∧
        emitted body = emitted (ChangeEvents mode fw env script).trace) ∧
    ((((ChangeEvents mode fw env script).status = .crashed ∧
          (mode = .halts ∨ env.addFile = .failed)) ∨
        (ChangeEvents mode fw env script).status = .waiting) →
      occurrences .acquire (ChangeEvents mode fw env script).trace = 1 ∧
      occurrences .release (ChangeEvents mode fw env script).trace = 0 ∧
      occurrences .close (ChangeEvents mode fw env script).trace = 0) ∧
    (∀ (fw1 : InotifyFileWatcher) (st : StatResult) (rest : List Tick),
      (eventLoop mode fw1 ({ recv := .closed, stat := st } :: rest)).status = .returned ∧
      (eventLoop mode fw1 ({ recv := .dying, stat := st } :: rest)).status = .returned) := by
  by_cases hadd : env.addFile = .failed
  · have hrun : ChangeEvents mode fw env script =
        { fw := fw, trace := [.acquire, .addFile, .fatal], status := .crashed } := by
      simp [ChangeEvents, hnew, hadd]
    rw [hrun]
    refine ⟨?_, ?_, ?_⟩
    · intro h
      simp [hadd] at h
    · intro _
      simp [occurrences]
    · intro fw1 st rest
      exact ⟨by rw [eventLoop_ret mode fw1 _ rest (by rw [iteration_closed])],
        by rw [eventLoop_ret mode fw1 _ rest (by rw [iteration_dying])]⟩
  · rw [ChangeEvents_started mode fw env script hnew hadd]
    obtain ⟨h1, h2⟩ := eventLoop_teardown mode script (seed fw env.fi)
    refine ⟨?_, ?_, ?_⟩
    · intro h
      have hloop : (eventLoop mode (seed fw env.fi) script).status = .returned ∨
          ((eventLoop mode (seed fw env.fi) script).status = .crashed ∧ mode = .unwinds) := by
        rcases h with h | ⟨h, hm, _⟩
        · exact Or.inl h
        · exact Or.inr ⟨h, hm⟩
      obtain ⟨body, hb, hbc, hbr, hba⟩ := h1 hloop
      simp only [hb]
      refine ⟨?_, ?_, ?_, [.acquire, .addFile, .addDir] ++ body, ?_, ?_, ?_, ?_⟩
      · simp [occurrences, List.count_append, List.count_cons, List.count_eq_zero.mpr hba]
      · simp [occurrences, List.count_append, List.count_cons, List.count_eq_zero.mpr hbr]
      · simp [occurrences, List.count_append, List.count_cons, List.count_eq_zero.mpr hbc]
      · simp
      · simp [hbc]
      · simp [hbr]
      · simp [emitted_append, emitted]
    · intro h
      have hloop : (eventLoop mode (seed fw env.fi) script).status = .waiting ∨
          ((eventLoop mode (seed fw env.fi) script).status = .crashed ∧ mode = .halts) := by
        rcases h with ⟨h, hm | hm⟩ | h
        · exact Or.inr ⟨h, hm⟩
        · exact absurd hm hadd
        · exact Or.inl h
      obtain ⟨hc, hr, ha⟩ := h2 hloop
      simp [occurrences, List.count_append, List.count_cons, List.count_eq_zero.mpr ha,
        List.count_eq_zero.mpr hr, List.count_eq_zero.mpr hc]
    · intro fw1 st rest
      exact ⟨by rw [eventLoop_ret mode fw1 _ rest (by rw [iteration_closed])],
        by rw [eventLoop_ret mode fw1 _ rest (by rw [iteration_dying])]⟩

/-- C8 amended, at the scenario of the specification: a Write, a truncating
Write, then the Remove of the tracked path; one release, one close, both after
the three notifications. -/
theorem C8_teardown_witness :
    occurrences .acquire (ChangeEvents .halts (NewInotifyFileWatcher "/var/log/app.log")
      { newWatcher := true, addFile := .ok, addDir := .ok, fi := some 100 }
      [writeTick "/var/log/app.log" 100, writeTick "/var/log/app.log" 20,
        { recv := .event { Name := "/var/log/app.log", Op := fsnotify.Remove },
          stat := .notExist }]).trace = 1 ∧
    occurrences .release (ChangeEvents .halts (NewInotifyFileWatcher "/var/log/app.log")
      { newWatcher := true, addFile := .ok, addDir := .ok, fi := some 100 }
      [writeTick "/var/log/app.log" 100, writeTick "/var/log/app.log" 20,
        { recv := .event { Name := "/var/log/app.log", Op := fsnotify.Remove },
          stat := .notExist }]).trace = 1 ∧
    occurrences .close (ChangeEvents .halts (NewInotifyFileWatcher "/var/log/app.log")
      { newWatcher := true, addFile := .ok, addDir := .ok, fi := some 100 }
      [writeTick "/var/log/app.log" 100, writeTick "/var/log/app.log" 20,
        { recv := .event { Name := "/var/log/app.log", Op := fsnotify.Remove },
          stat := .notExist }]).trace = 1 :=
  have h := (C8_teardown .halts (NewInotifyFileWatcher "/var/log/app.log")
    { newWatcher := true, addFile := .ok, addDir := .ok, fi := some 100 }
    [writeTick "/var/log/app.log" 100, writeTick "/var/log/app.log" 20,
      { recv := .event { Name := "/var/log/app.log", Op := fsnotify.Remove },
        stat := .notExist }] rfl).1 (Or.inl (by decide))
  ⟨h.1, h.2.1, h.2.2.1⟩

/-- C9: for every run of BlockUntilExists that returns, the releases in its
trace are as many as the successful acquires: none of either when NewWatcher
fails, one of each otherwise (the release being the last call), whatever made
the call return; so the outstanding-handle count after the call is the count
before it. -/
theorem C9_block_releases_what_it_acquired (fw : InotifyFileWatcher) (env : BlockSetup)
    (script : List Recv) (before : Nat)
    (hret : (BlockUntilExists fw env script).result ≠ none) :
    occurrences .release (BlockUntilExists fw env script).trace =
      occurrences .acquire (BlockUntilExists fw env script).trace ∧
    (env.newWatcher = false →
      occurrences .acquire (BlockUntilExists fw env script).trace = 0 ∧
      occurrences .release (BlockUntilExists fw env script).trace = 0) ∧
    (env.newWatcher = true →
      occurrences .acquire (BlockUntilExists fw env script).trace = 1 ∧
      occurrences .release (BlockUntilExists fw env script).trace = 1 ∧
      (BlockUntilExists fw env script).trace.getLast? = some Action.release) ∧
    outstandingAfter before (BlockUntilExists fw env script).trace = before := by
  obtain ⟨newWatcher, addDir, stat⟩ := env
  cases newWatcher with
  | false => simp [BlockUntilExists, occurrences, outstandingAfter]
  | true =>
    cases addDir with
    | false => simp [BlockUntilExists, occurrences, outstandingAfter, trackerStep]
    | true =>
      cases stat with
      | ok size => simp [BlockUntilExists, occurrences, outstandingAfter, trackerStep]
      | failed => simp [BlockUntilExists, occurrences, outstandingAfter, trackerStep]
      | notExist =>
        cases hw : waitForFile fw script with
        | mk r n =>
          cases r with
          | none => simp [BlockUntilExists, hw] at hret
          | some v => simp [BlockUntilExists, hw, occurrences, outstandingAfter, trackerStep]

/-- C9 at a run that ends by cancellation after a sibling event, with three
handles outstanding before the call. -/
theorem C9_block_releases_what_it_acquired_witness :
    (BlockUntilExists (NewInotifyFileWatcher "/var/log/app.log")
      { newWatcher := true, addDir := true, stat := .notExist }
      [.event { Name := "/var/log/other.log", Op := fsnotify.Create }, .dying]).result =
      some (some BlockError.dying) ∧
    outstandingAfter 3 (BlockUntilExists (NewInotifyFileWatcher "/var/log/app.log")
      { newWatcher := true, addDir := true, stat := .notExist }
      [.event { Name := "/var/log/other.log", Op := fsnotify.Create }, .dying]).trace = 3 :=
  ⟨by decide,
    (C9_block_releases_what_it_acquired (NewInotifyFileWatcher "/var/log/app.log")
      { newWatcher := true, addDir := true, stat := .notExist }
      [.event { Name := "/var/log/other.log", Op := fsnotify.Create }, .dying] 3
      (by decide)).2.2.2⟩

/-- The watcher after one turn: as before, or, when the turn stat'ed the path
with success, with the size of that stat, the turn going on after one
Modified or Truncated. -/
theorem iteration_size (fw : InotifyFileWatcher) (t : Tick) :
    ((iteration fw t).fw = fw ∧ (t.recv = .closed ∨ t.recv = .dying ∨
        (iteration fw t).acts = [] ∨ (iteration fw t).control ≠ .next)) ∨
    (∃ s, t.stat = .ok s ∧ (iteration fw t).control = .next ∧
      (iteration fw t).fw = { fw with Size := s } ∧ Action.stat ∈ (iteration fw t).acts ∧
      emitted (iteration fw t).acts = [sizeRule fw.Size s]) := by
  obtain ⟨recv, st⟩ := t
  cases recv with
  | closed => left; simp [iteration]
  | dying => left; simp [iteration]
  | event evt =>
    cases st with
    | notExist =>
      left
      simp only [iteration, statAndClassify]
      split_ifs <;> simp_all
    | failed =>
      left
      simp only [iteration, statAndClassify]
      split_ifs <;> simp_all
    | ok size =>
      simp only [iteration, statAndClassify_ok]
      split_ifs <;> simp_all [emitted]

theorem iteration_Filename (fw : InotifyFileWatcher) (t : Tick) :
    (iteration fw t).fw.Filename = fw.Filename := by
  rcases iteration_size fw t with ⟨h, _⟩ | ⟨s, _, _, h, _⟩ <;> rw [h]

theorem eventLoop_size_nonneg (mode : FatalMode) (script : List Tick) :
    ∀ fw : InotifyFileWatcher, 0 ≤ fw.Size →
      (∀ t ∈ script, ∀ s, t.stat = .ok s → 0 ≤ s) →
      0 ≤ (eventLoop mode fw script).fw.Size := by
  induction script with
  | nil => intro fw h _; exact h
  | cons t rest ih =>
    intro fw h hstat
    have hturn : 0 ≤ (iteration fw t).fw.Size := by
      rcases iteration_size fw t with ⟨hfw, _⟩ | ⟨s, hs, _, hfw, _⟩
      · rw [hfw]; exact h
      · rw [hfw]; exact hstat t (List.mem_cons_self _ _) s hs
    cases hctl : (iteration fw t).control with
    | next =>
      rw [eventLoop_next mode fw t rest hctl]
      exact ih _ hturn (fun u hu => hstat u (List.mem_cons_of_mem _ hu))
    | ret => rw [eventLoop_ret mode fw t rest hctl]; exact hturn
    | fatal => rw [eventLoop_fatal mode fw t rest hctl]; exact hturn

theorem sizeRule_ne_Deleted (prev cur : Int) : sizeRule prev cur ≠ ChangeEvent.Deleted := by
  unfold sizeRule
  split_ifs <;> simp

theorem iteration_stat_ok (fw : InotifyFileWatcher) (t : Tick) (s : Int)
    (hs : t.stat = .ok s) (hcall : Action.stat ∈ (iteration fw t).acts) :
    (iteration fw t).fw = { fw with Size := s } := by
  obtain ⟨recv, st⟩ := t
  simp only at hs
  subst hs
  cases recv with
  | closed => simp [iteration] at hcall
  | dying => simp [iteration] at hcall
  | event evt =>
    revert hcall
    simp only [iteration, statAndClassify_ok]
    split_ifs <;> simp_all

/-- C10: a newly constructed watcher has the given path and size 0; for every
ChangeEvents run on it in which the initial info, if supplied, and every
successful stat report a non-negative size, the size is non-negative after
every number of turns; and a turn changes the size only when it stat'ed the
path with success, where the size becomes the one of that stat (a turn that
emits Deleted, makes no call, or observes cancellation leaves the watcher as
it is). -/
theorem C10_size_invariant (name : String) (mode : FatalMode) (env : Setup)
    (script : List Tick) (hfi : ∀ s, env.fi = some s → 0 ≤ s)
    (hstat : ∀ t ∈ script, ∀ s, t.stat = .ok s → 0 ≤ s) :
    (NewInotifyFileWatcher name).Filename = name ∧
    (NewInotifyFileWatcher name).Size = 0 ∧
    (∀ k, 0 ≤ (ChangeEvents mode (NewInotifyFileWatcher name) env (script.take k)).fw.Size) ∧
    (∀ (fw : InotifyFileWatcher) (t : Tick), (iteration fw t).fw.Size ≠ fw.Size →
      ∃ s, t.stat = .ok s ∧ Action.stat ∈ (iteration fw t).acts ∧
        (iteration fw t).fw.Size = s) ∧
    (∀ (fw : InotifyFileWatcher) (t : Tick) (s : Int), t.stat = .ok s →
      Action.stat ∈ (iteration fw t).acts → (iteration fw t).fw.Size = s) ∧
    (∀ (fw : InotifyFileWatcher) (t : Tick),
      (ChangeEvent.Deleted ∈ emitted (iteration fw t).acts ∨ (iteration fw t).acts = [] ∨
        t.recv = .dying) → (iteration fw t).fw = fw) := by
  refine ⟨rfl, rfl, ?_, ?_, ?_, ?_⟩
  · intro k
    have hseed : 0 ≤ (seed (NewInotifyFileWatcher name) env.fi).Size := by
      cases hfi0 : env.fi with
      | none => exact le_refl _
      | some s => exact hfi s hfi0
    by_cases hnew : env.newWatcher = true
    · by_cases hadd : env.addFile = .failed
      · simp [ChangeEvents, hnew, hadd, NewInotifyFileWatcher]
      · rw [ChangeEvents_started mode _ env _ hnew hadd]
        exact eventLoop_size_nonneg mode _ _ hseed
          (fun t ht => hstat t (List.mem_of_mem_take ht))
    · simp [ChangeEvents, hnew, NewInotifyFileWatcher]
  · intro fw t hne
    rcases iteration_size fw t with ⟨hfw, _⟩ | ⟨s, hs, _, hfw, hcall, _⟩
    · exact absurd (by rw [hfw]) hne
    · exact ⟨s, hs, hcall, by rw [hfw]⟩
  · intro fw t s hs hcall
    rw [iteration_stat_ok fw t s hs hcall]
  · intro fw t h
    rcases iteration_size fw t with ⟨hfw, _⟩ | ⟨s, hs, _, hfw, hcall, hem⟩
    · exact hfw
    · rcases h with h | h | h
      · rw [hem] at h
        exact absurd (List.mem_singleton.mp h).symm (sizeRule_ne_Deleted _ _)
      · rw [h] at hcall
        simp at hcall
      · obtain ⟨recv, st⟩ := t
        simp only at h
        subst h
        rfl

/-- C10 at a new watcher seeded with size 100 that sees a Write of size 20:
the size is 20 afterwards, and non-negative after each number of turns. -/
theorem C10_size_invariant_witness :
    (ChangeEvents .halts (NewInotifyFileWatcher "/var/log/app.log")
      { newWatcher := true, addFile := .ok, addDir := .ok, fi := some 100 }
      ([writeTick "/var/log/app.log" 20].take 1)).fw.Size = 20 ∧
    0 ≤ (ChangeEvents .halts (NewInotifyFileWatcher "/var/log/app.log")
      { newWatcher := true, addFile := .ok, addDir := .ok, fi := some 100 }
      ([writeTick "/var/log/app.log" 20].take 1)).fw.Size :=
  ⟨by decide,
    (C10_size_invariant "/var/log/app.log" .halts
      { newWatcher := true, addFile := .ok, addDir := .ok, fi := some 100 }
      [writeTick "/var/log/app.log" 20]
      (fun s h => by
        have hs : (100 : Int) = s := Option.some.inj h
        rw [← hs]; decide)
      (fun t ht s hs => by
        have ht1 : t = writeTick "/var/log/app.log" 20 := List.mem_singleton.mp ht
        rw [ht1] at hs
        have hs1 : (20 : Int) = s := StatResult.ok.inj hs
        rw [← hs1]; decide)).2.2.1 1⟩

end Watch
